import Mathlib

/-!
Shallow embedding of the multiverse simulator (repository AdnanAhmed12/Multiverse):
the message factory from `src/multiverse/messagefactory.go` and the monitoring
harness from `src/main.go`.  Go `uint64` arithmetic is modelled as `Nat` with an
explicit `% 2 ^ 64`; Go `int64` values that never approach their bounds in the
properties considered are modelled as `Int`.  Go map iteration (whose order is
unspecified) is modelled by a list capturing one iteration sequence.
-/

namespace Multiverse

/-- Modelled from the spec: `Color` is a small tag with values
{Undefined, Red, Green, Blue} (the Go type lives outside `src/`). -/
inductive Color where
  | UndefinedColor
  | Red
  | Green
  | Blue
deriving DecidableEq, Repr

/-- Modelled from the spec: a `MessageID` is an opaque globally unique identifier;
we use naturals, matching the Go integer type's zero value. -/
abbrev MessageID : Type := Nat

/-- Modelled from the spec: the distinguished DAG root identifier.  It coincides
with the zero value of the Go `MessageID` type (the value `sp` holds in
`CreateMessage` when the strong-parent set is empty). -/
def Genesis : MessageID := (0 : Nat)

/-- Modelled from the spec: the tip manager exposes `Tips()` (the selected strong
parents, `tipList` recording one Go map iteration order) and
`GetTip(id) -> (height, ok)` (the recorded height of a tip), both read-only:
spec section 4.3 says `tips()` selects parents and `get_tip` exposes a height,
and removal happens only during message processing. -/
structure TipManager where
  tipList : List MessageID
  tipHeights : List (MessageID × Nat)
deriving DecidableEq

/-- The `Tips()` accessor of the tip manager. -/
def TipManager.Tips (tm : TipManager) : List MessageID := tm.tipList

/-- The `GetTip` accessor: Go's `(int, bool)` return is modelled as `Option Nat`. -/
def TipManager.GetTip (tm : TipManager) (id : MessageID) : Option Nat :=
  tm.tipHeights.lookup id

/-- Modelled from the spec: a peer, of which only the identifier is read by
`CreateMessage` (`m.tangle.Peer.ID`). -/
structure Peer where
  ID : Nat
deriving DecidableEq

/-- Modelled from the spec: the slice of the owning `Tangle` that
`CreateMessage` reads (its tip manager and its peer). -/
structure Tangle where
  tipManager : TipManager
  peer : Peer
deriving DecidableEq

/-- Modelled from the spec: a message record with the fields assembled by
`CreateMessage` (section 3 of the spec lists `weak_parents`, which the struct
literal in the source leaves at its Go zero value).  `IssuanceTime` is an
abstract timestamp. -/
structure Message where
  ID : Nat
  StrongParents : List MessageID
  WeakParents : List MessageID
  height : Nat
  SequenceNumber : Nat
  Issuer : Nat
  Payload : Color
  IssuanceTime : Nat
deriving DecidableEq

/-- The message factory state from `messagefactory.go`: a reference to the
owning tangle, the issuer-local sequence counter (a Go `uint64`), and the
number of nodes. -/
structure MessageFactory where
  tangle : Tangle
  sequenceNumber : Nat
  numberOfNodes : Nat
deriving DecidableEq

/-- The `NewMessageFactory` constructor: the sequence counter starts at zero. -/
def NewMessageFactory (tangle : Tangle) (numberOfNodes : Nat) : MessageFactory :=
  { tangle := tangle, sequenceNumber := 0, numberOfNodes := numberOfNodes }

/-- Modelled from the spec: `NewMessageID` allocates a fresh, globally unique
identifier; we model the global allocator state as a counter that is returned
and incremented. -/
def NewMessageID (idState : Nat) : Nat × Nat := (idState, idState + 1)

/-- Transcription of `MessageFactory.CreateMessage` from
`src/multiverse/messagefactory.go`.  The Go loop `for s := range strongParents`
leaves `sp` holding the last iterated element (or the zero value `Genesis` when
the set is empty); `parentheight` is the tip-manager height of `sp` when `sp`
is not Genesis and the lookup succeeds, and `0` otherwise.  The sequence number
is the result of `atomic.AddUint64(&m.sequenceNumber, 1)`, i.e. the old counter
plus one modulo `2 ^ 64`.  The abstract clock value `now` stands for
`time.Now()` and `idState` for the global `NewMessageID` allocator state; the
function returns the message, the updated factory and the updated allocator
state. -/
def CreateMessage (m : MessageFactory) (payload : Color) (now : Nat) (idState : Nat) :
    Message × MessageFactory × Nat :=
  let strongParents := m.tangle.tipManager.Tips
  let sp : MessageID := strongParents.getLastD Genesis
  let parentheight : Nat :=
    if sp ≠ Genesis then
      match m.tangle.tipManager.GetTip sp with
      | some h => h
      | none => 0
    else 0
  let fresh := NewMessageID idState
  let newSeq := (m.sequenceNumber + 1) % 2 ^ 64
  ({ ID := fresh.1
     StrongParents := strongParents
     WeakParents := []
     height := parentheight + 1
     SequenceNumber := newSeq
     Issuer := m.tangle.peer.ID
     Payload := payload
     IssuanceTime := now },
   { m with sequenceNumber := newSeq },
   fresh.2)

/-- A run of successive `CreateMessage` calls on one factory, threading the
factory state and the global identifier allocator through the calls; each input
supplies the payload colour and the clock reading of that call. -/
def createRun (f : MessageFactory) (idState : Nat) :
    List (Color × Nat) → List Message × MessageFactory × Nat
  | [] => ([], f, idState)
  | (c, t) :: rest =>
    let r := CreateMessage f c t idState
    let rr := createRun r.2.1 r.2.2 rest
    (r.1 :: rr.1, rr.2)

/-- Transcription of the colour computed inside `mostLikedColorChanged` in
`src/main.go` (lines 862-871): three sequential overwrites of
`currentMostLikedColor`, starting from `UndefinedColor`. -/
def currentMostLikedColor (r g b : Int) : Color :=
  let c0 := Color.UndefinedColor
  let c1 := if g > 0 then Color.Green else c0
  let c2 := if b > g then Color.Blue else c1
  if r > b ∧ r > g then Color.Red else c2

/-- Transcription of `mostLikedColorChanged` from `src/main.go`: the Boolean
result together with the new value of the tracked `mostLikedColorVar` (the Go
function mutates the variable through a pointer). -/
def mostLikedColorChanged (r g b : Int) (mostLikedColorVar : Color) : Bool × Color :=
  let cur := currentMostLikedColor r g b
  if mostLikedColorVar ≠ cur then
    if mostLikedColorVar = Color.UndefinedColor then
      (false, cur)
    else
      (true, cur)
  else
    (false, mostLikedColorVar)

/-- One `OpinionChanged` handler step of the harness (`src/main.go` lines
458-461): recompute the most-liked colour from the current counters and add one
to the `flips` counter exactly when `mostLikedColorChanged` reports a change.
The state is the tracked colour together with the `flips` counter. -/
def opinionStep (st : Color × Int) (x : Int × Int × Int) : Color × Int :=
  let res := mostLikedColorChanged x.1 x.2.1 x.2.2 st.1
  (res.2, st.2 + (if res.1 then 1 else 0))

/-- A whole sequence of most-liked-colour updates folded through the harness
handler. -/
def runOpinion (st : Color × Int) (xs : List (Int × Int × Int)) : Color × Int :=
  xs.foldl opinionStep st

/-- Specification-side count of flips in an update sequence: a step counts
exactly when the tracked colour is not `UndefinedColor` and the newly computed
most-liked colour differs from it. -/
def countFlips : Color → List (Int × Int × Int) → Int
  | _, [] => 0
  | v, x :: xs =>
    let cur := currentMostLikedColor x.1 x.2.1 x.2.2
    (if v ≠ Color.UndefinedColor ∧ cur ≠ v then 1 else 0) + countFlips cur xs

/-- Specification-side tracked colour after an update sequence: each step
overwrites the tracked colour with the newly computed most-liked colour. -/
def trackedAfter : Color → List (Int × Int × Int) → Color
  | v, [] => v
  | _, x :: xs => trackedAfter (currentMostLikedColor x.1 x.2.1 x.2.2) xs

/-- The opinion rule as the spec and claim state it: the colour with the
largest count, ties broken by the fixed total order Red > Green > Blue >
Undefined, and Undefined when all three counts are zero. -/
def specOpinionRule (r g b : Int) : Color :=
  if r = 0 ∧ g = 0 ∧ b = 0 then Color.UndefinedColor
  else if r ≥ g ∧ r ≥ b then Color.Red
  else if g ≥ b then Color.Green
  else Color.Blue

/-- Declarative statement of what the source's sequential comparisons compute
on non-negative counts: the colour with the largest count, ties broken by the
total order Green > Blue > Red, and Undefined when all three counts are
zero. -/
def amendedOpinionRule (r g b : Int) : Color :=
  if r = 0 ∧ g = 0 ∧ b = 0 then Color.UndefinedColor
  else if g ≥ r ∧ g ≥ b then Color.Green
  else if b ≥ r then Color.Blue
  else Color.Red

/-- The height the claim asserts for a new message: one plus the maximum height
over all strong parents, where Genesis has height 0 and any other parent's
height is the one recorded by the tip manager. -/
def specClaimedHeight (tm : TipManager) (ps : List MessageID) : Nat :=
  1 + (ps.map (fun p => if p = Genesis then 0 else (tm.GetTip p).getD 0)).foldr max 0

/-- The per-node events of the opinion manager that drive the two per-node
harness counters: `MinConfirmedWeightUpdated(color, confirmedWeight)` and
`ColorUnconfirmed(color, unconfirmedSupport, weight)`. -/
inductive NodeEvent where
  | minConfirmedWeightUpdated (opinion : Color) (confirmedWeight : Int)
  | colorUnconfirmed (unconfirmedColor : Color) (unconfirmedSupport : Int) (weight : Int)
deriving DecidableEq

/-- Test for the `ColorUnconfirmed` constructor. -/
def NodeEvent.isColorUnconfirmed : NodeEvent → Bool
  | .colorUnconfirmed _ _ _ => true
  | _ => false

/-- The per-node counter pair kept by the harness in `nodeCounters`
(`src/main.go` lines 311-316). -/
structure NodeCounters where
  minConfirmedAccumulatedWeight : Int
  unconfirmationCount : Int
deriving DecidableEq

/-- The initial per-node counters (`src/main.go` lines 311-316): the minimum
confirmed accumulated weight starts at the total node weight and the
unconfirmation count at zero. -/
def initNodeCounters (totalWeight : Int) : NodeCounters :=
  { minConfirmedAccumulatedWeight := totalWeight, unconfirmationCount := 0 }

/-- Transcription of the two per-node event handlers attached in
`monitorNetworkState` (`src/main.go` lines 484-503): `ColorUnconfirmed` resets
the minimum confirmed accumulated weight to the total node weight and adds one
to the unconfirmation count; `MinConfirmedWeightUpdated` lowers the minimum
when the event's weight is below it. -/
def handleNodeEvent (totalWeight : Int) (s : NodeCounters) : NodeEvent → NodeCounters
  | .minConfirmedWeightUpdated _ confirmedWeight =>
    if s.minConfirmedAccumulatedWeight > confirmedWeight then
      { s with minConfirmedAccumulatedWeight := confirmedWeight }
    else
      s
  | .colorUnconfirmed _ _ _ =>
    { minConfirmedAccumulatedWeight := totalWeight
      unconfirmationCount := s.unconfirmationCount + 1 }

/-- A node's counters after a sequence of events, starting from the initial
state. -/
def runNodeEvents (totalWeight : Int) (s : NodeCounters) (es : List NodeEvent) :
    NodeCounters :=
  es.foldl (handleNodeEvent totalWeight) s

/-- Specification-side extraction of the weights carried by the
`MinConfirmedWeightUpdated` events observed since the last `ColorUnconfirmed`
event (all events when no `ColorUnconfirmed` has occurred). -/
def weightsSinceLastReset (es : List NodeEvent) : List Int :=
  ((es.reverse.takeWhile (fun e => !e.isColorUnconfirmed)).reverse).filterMap
    (fun e => match e with
      | .minConfirmedWeightUpdated _ w => some w
      | _ => none)

/-- Transcription of `sendMessage` from `src/main.go` (lines 825-833): the
`tps` counter is incremented, then the head of the variadic `optionalColor`
argument (when present) is issued, then an `UndefinedColor` payload is issued.
The result is the list of issued payloads in order, with the new `tps`
value. -/
def sendMessage (optionalColor : List Color) (tps : Int) : List Color × Int :=
  let issued :=
    match optionalColor with
    | c :: _ => [c, Color.UndefinedColor]
    | [] => [Color.UndefinedColor]
  (issued, tps + 1)

/-- One instruction of the double-spend simulation (`SimulateDoubleSpent`,
`src/main.go` lines 123-151): the designated peer is told to send its assigned
colour through a single `sendMessage(peer, color)` call. -/
def simulateDoubleSpentInstruct (c : Color) (tps : Int) : List Color × Int :=
  sendMessage [c] tps

/-! Helper lemmas shared by the claim theorems. -/

/-- The tracked most-liked colour after a `mostLikedColorChanged` call is
always the freshly computed colour. -/
lemma mostLikedColorChanged_snd (r g b : Int) (v : Color) :
    (mostLikedColorChanged r g b v).2 = currentMostLikedColor r g b := by
  unfold mostLikedColorChanged
  by_cases h : v = currentMostLikedColor r g b
  · simp [h]
  · by_cases hu : v = Color.UndefinedColor
    · subst hu
      simp [h]
    · simp [h, hu]

/-- Characterisation of the Boolean result of `mostLikedColorChanged`. -/
lemma mostLikedColorChanged_fst_iff (r g b : Int) (v : Color) :
    (mostLikedColorChanged r g b v).1 = true ↔
      v ≠ Color.UndefinedColor ∧ currentMostLikedColor r g b ≠ v := by
  unfold mostLikedColorChanged
  by_cases h : v = currentMostLikedColor r g b
  · subst h
    simp
  · by_cases hu : v = Color.UndefinedColor
    · subst hu
      simp [h]
    · simp [h, hu, Ne.symm h]

/-- The harness increment driven by `mostLikedColorChanged` agrees with the
declarative flip condition. -/
lemma mostLikedColorChanged_flip_if (r g b : Int) (v : Color) :
    (if (mostLikedColorChanged r g b v).1 then (1 : Int) else 0) =
      if v ≠ Color.UndefinedColor ∧ currentMostLikedColor r g b ≠ v then 1 else 0 := by
  by_cases h : v ≠ Color.UndefinedColor ∧ currentMostLikedColor r g b ≠ v
  · simp [h, (mostLikedColorChanged_fst_iff r g b v).mpr h]
  · have : ¬ (mostLikedColorChanged r g b v).1 = true := by
      intro hc
      exact h ((mostLikedColorChanged_fst_iff r g b v).mp hc)
    simp [h, this]

/-- Folding the harness opinion handler over an update sequence tracks the
latest computed colour and adds up exactly the declarative flip count. -/
lemma runOpinion_eq (v : Color) (n : Int) (xs : List (Int × Int × Int)) :
    runOpinion (v, n) xs = (trackedAfter v xs, n + countFlips v xs) := by
  induction xs generalizing v n with
  | nil => simp [runOpinion, trackedAfter, countFlips]
  | cons x rest ih =>
    have hstep : opinionStep (v, n) x =
        (currentMostLikedColor x.1 x.2.1 x.2.2,
          n + (if v ≠ Color.UndefinedColor ∧
                  currentMostLikedColor x.1 x.2.1 x.2.2 ≠ v then (1 : Int) else 0)) := by
      simp only [opinionStep]
      rw [mostLikedColorChanged_snd, mostLikedColorChanged_flip_if]
    have hrun : runOpinion (v, n) (x :: rest) = runOpinion (opinionStep (v, n) x) rest := rfl
    have ht : trackedAfter v (x :: rest) =
        trackedAfter (currentMostLikedColor x.1 x.2.1 x.2.2) rest := rfl
    have hc : countFlips v (x :: rest) =
        (if v ≠ Color.UndefinedColor ∧
            currentMostLikedColor x.1 x.2.1 x.2.2 ≠ v then (1 : Int) else 0) +
          countFlips (currentMostLikedColor x.1 x.2.1 x.2.2) rest := rfl
    rw [hrun, hstep, ih, ht, hc]
    exact Prod.ext_iff.mpr ⟨rfl, by ring⟩

/-- Folding the node-event handler over one appended event. -/
lemma runNodeEvents_append (tw : Int) (s : NodeCounters) (es : List NodeEvent)
    (e : NodeEvent) :
    runNodeEvents tw s (es ++ [e]) = handleNodeEvent tw (runNodeEvents tw s es) e := by
  simp [runNodeEvents, List.foldl_append]

/-- Appending a `ColorUnconfirmed` event empties the list of weights observed
since the last reset. -/
lemma weightsSinceLastReset_append_reset (es : List NodeEvent) (c : Color)
    (ls w : Int) :
    weightsSinceLastReset (es ++ [.colorUnconfirmed c ls w]) = [] := by
  simp [weightsSinceLastReset, NodeEvent.isColorUnconfirmed, List.takeWhile_cons]

/-- Appending a `MinConfirmedWeightUpdated` event appends its weight to the
list of weights observed since the last reset. -/
lemma weightsSinceLastReset_append_update (es : List NodeEvent) (c : Color)
    (w : Int) :
    weightsSinceLastReset (es ++ [.minConfirmedWeightUpdated c w]) =
      weightsSinceLastReset es ++ [w] := by
  simp [weightsSinceLastReset, NodeEvent.isColorUnconfirmed, List.takeWhile_cons,
    List.filterMap_append]

/-- The `MinConfirmedWeightUpdated` handler computes the minimum of the stored
counter and the event's weight. -/
lemma handleNodeEvent_update (tw : Int) (s : NodeCounters) (c : Color) (w : Int) :
    handleNodeEvent tw s (.minConfirmedWeightUpdated c w) =
      { s with minConfirmedAccumulatedWeight := min s.minConfirmedAccumulatedWeight w } := by
  have h0 : handleNodeEvent tw s (.minConfirmedWeightUpdated c w) =
      if s.minConfirmedAccumulatedWeight > w then
        { s with minConfirmedAccumulatedWeight := w }
      else s := rfl
  rw [h0]
  split_ifs with h
  · rw [min_eq_right (le_of_lt h)]
  · rw [min_eq_left (not_lt.mp h)]

/-- The `ColorUnconfirmed` handler resets the minimum counter to the total
weight and adds one to the unconfirmation counter. -/
lemma handleNodeEvent_reset (tw : Int) (s : NodeCounters) (c : Color) (ls w : Int) :
    handleNodeEvent tw s (.colorUnconfirmed c ls w) =
      { minConfirmedAccumulatedWeight := tw,
        unconfirmationCount := s.unconfirmationCount + 1 } := rfl

/-- Closed form of a node's counters after a sequence of events: the minimum
counter is the minimum of the total weight and all weights observed since the
last reset, and the unconfirmation counter counts the `ColorUnconfirmed`
events. -/
lemma runNodeEvents_spec (tw : Int) (es : List NodeEvent) :
    runNodeEvents tw (initNodeCounters tw) es =
      { minConfirmedAccumulatedWeight := (weightsSinceLastReset es).foldl min tw,
        unconfirmationCount := (es.countP (fun e => e.isColorUnconfirmed) : Int) } := by
  induction es using List.reverseRecOn with
  | nil => simp [runNodeEvents, initNodeCounters, weightsSinceLastReset]
  | append_singleton es e ih =>
    rw [runNodeEvents_append, ih]
    cases e with
    | minConfirmedWeightUpdated c w =>
      rw [handleNodeEvent_update, weightsSinceLastReset_append_update, List.foldl_append]
      simp [NodeCounters.mk.injEq, List.countP_append, NodeEvent.isColorUnconfirmed]
    | colorUnconfirmed c ls w =>
      rw [handleNodeEvent_reset, weightsSinceLastReset_append_reset]
      simp [NodeCounters.mk.injEq, List.countP_append, NodeEvent.isColorUnconfirmed]

/-- Closed form of a run of `CreateMessage` calls: payloads, timestamps and the
issuer are stamped from the inputs and the factory's peer, and the identifiers
are the consecutive values handed out by the global allocator. -/
lemma createRun_spec (f : MessageFactory) (idc : Nat) (inputs : List (Color × Nat)) :
    (createRun f idc inputs).1.map Message.Payload = inputs.map Prod.fst ∧
    (createRun f idc inputs).1.map Message.IssuanceTime = inputs.map Prod.snd ∧
    (createRun f idc inputs).1.map Message.Issuer =
      List.replicate inputs.length f.tangle.peer.ID ∧
    (createRun f idc inputs).1.map Message.ID = List.range' idc inputs.length := by
  induction inputs generalizing f idc with
  | nil => simp [createRun]
  | cons p rest ih =>
    obtain ⟨c, t⟩ := p
    obtain ⟨h1, h2, h3, h4⟩ :=
      ih { f with sequenceNumber := (f.sequenceNumber + 1) % 2 ^ 64 } (idc + 1)
    have hmsgs : (createRun f idc ((c, t) :: rest)).1 =
        (CreateMessage f c t idc).1 ::
          (createRun { f with sequenceNumber := (f.sequenceNumber + 1) % 2 ^ 64 }
            (idc + 1) rest).1 := rfl
    refine ⟨?_, ?_, ?_, ?_⟩ <;> rw [hmsgs]
    · simp only [List.map_cons, h1]
      rfl
    · simp only [List.map_cons, h2]
      rfl
    · simp only [List.map_cons, List.length_cons, List.replicate_succ, h3]
      rfl
    · simp only [List.map_cons, List.range'_succ, h4]
      rfl

/-! Claim theorems. -/

/-- Claim C1, counterexample: a message created with the two non-Genesis strong
parents 1 and 2 of recorded heights 5 and 2 gets height 3 (one plus the height
of the last-enumerated parent), not 6 (one plus the maximum parent height) as
the claim asserts. -/
theorem claim_c1_height_counterexample :
    let tm : TipManager := ⟨[1, 2], [(1, 5), (2, 2)]⟩
    let f : MessageFactory := ⟨⟨tm, ⟨7⟩⟩, 0, 1⟩
    let msg := (CreateMessage f Color.Red 0 0).1
    msg.StrongParents = [1, 2] ∧ Genesis ∉ msg.StrongParents ∧
    msg.height = 3 ∧ specClaimedHeight tm msg.StrongParents = 6 ∧
    msg.height ≠ specClaimedHeight tm msg.StrongParents := by
  decide

/-- Claim C1 as amended: the height of a message returned by `CreateMessage`
equals one plus the tip-manager height of the single last-enumerated strong
parent (when that parent is not Genesis and has a recorded height), regardless
of the heights of the other strong parents. -/
theorem claim_c1_height_last_parent (f : MessageFactory) (c : Color) (t i sp h : Nat)
    (hlast : f.tangle.tipManager.Tips.getLast? = some sp)
    (hsp : sp ≠ Genesis)
    (hh : f.tangle.tipManager.GetTip sp = some h) :
    (CreateMessage f c t i).1.height = h + 1 := by
  simp [CreateMessage, List.getLastD_eq_getLast?, hlast, hsp, hh]

/-- Witness for the amended claim C1 at a concrete tip manager. -/
theorem claim_c1_height_last_parent_witness :
    (CreateMessage ⟨⟨⟨[1, 2], [(1, 5), (2, 2)]⟩, ⟨7⟩⟩, 0, 1⟩ Color.Red 0 0).1.height
      = 2 + 1 :=
  claim_c1_height_last_parent ⟨⟨⟨[1, 2], [(1, 5), (2, 2)]⟩, ⟨7⟩⟩, 0, 1⟩ Color.Red 0 0 2 2
    (by decide) (by decide) (by decide)

/-- Claim C2, counterexample: on the tied counts r = g = b = 5 the source
computes Green while the claimed rule (largest count, ties broken
Red > Green > Blue > Undefined) yields Red. -/
theorem claim_c2_most_liked_counterexample :
    currentMostLikedColor 5 5 5 = Color.Green ∧
    specOpinionRule 5 5 5 = Color.Red ∧
    currentMostLikedColor 5 5 5 ≠ specOpinionRule 5 5 5 := by
  decide

/-- Claim C2 as amended: for non-negative counts the colour computed inside
`mostLikedColorChanged` is the one with the largest count with ties broken by
the total order Green > Blue > Red, and Undefined exactly when all three
counts are zero. -/
theorem claim_c2_most_liked_amended (r g b : Int) (hr : 0 ≤ r) (hg : 0 ≤ g)
    (hb : 0 ≤ b) :
    currentMostLikedColor r g b = amendedOpinionRule r g b := by
  unfold currentMostLikedColor amendedOpinionRule
  split_ifs <;> first | rfl | omega

/-- Witness for the amended claim C2 at concrete counts. -/
theorem claim_c2_most_liked_amended_witness :
    currentMostLikedColor 3 1 2 = amendedOpinionRule 3 1 2 :=
  claim_c2_most_liked_amended 3 1 2 (by decide) (by decide) (by decide)

/-- Claim C3: `mostLikedColorChanged` returns true exactly when the tracked
colour is not Undefined and the freshly computed most-liked colour differs
from it (so the first transition out of Undefined returns false), and over any
update sequence the harness `flips` counter grows by exactly the number of
such transitions while the tracked colour follows the computed colour. -/
theorem claim_c3_flip_counting (v : Color) (n : Int) (r g b : Int)
    (xs : List (Int × Int × Int)) :
    ((mostLikedColorChanged r g b v).1 = true ↔
      v ≠ Color.UndefinedColor ∧ currentMostLikedColor r g b ≠ v) ∧
    ((mostLikedColorChanged r g b Color.UndefinedColor).1 = false) ∧
    runOpinion (v, n) xs = (trackedAfter v xs, n + countFlips v xs) := by
  refine ⟨mostLikedColorChanged_fst_iff r g b v, ?_, runOpinion_eq v n xs⟩
  have h := mostLikedColorChanged_fst_iff r g b Color.UndefinedColor
  cases hb : (mostLikedColorChanged r g b Color.UndefinedColor).1
  · rfl
  · exact absurd (h.mp hb).1 (by simp)

/-- Claim C4: a node's `minConfirmedAccumulatedWeight` counter equals the
minimum of the total node weight and all weights carried by
`MinConfirmedWeightUpdated` events since the last `ColorUnconfirmed` event,
its `unconfirmationCount` counter equals the number of `ColorUnconfirmed`
events, and each `ColorUnconfirmed` event resets the former to the total
weight while adding exactly one to the latter. -/
theorem claim_c4_min_confirmed_weight (tw : Int) (es : List NodeEvent) :
    (runNodeEvents tw (initNodeCounters tw) es).minConfirmedAccumulatedWeight
        = (weightsSinceLastReset es).foldl min tw ∧
    (runNodeEvents tw (initNodeCounters tw) es).unconfirmationCount
        = (es.countP (fun e => e.isColorUnconfirmed) : Int) ∧
    ∀ s c ls w, handleNodeEvent tw s (.colorUnconfirmed c ls w)
        = { minConfirmedAccumulatedWeight := tw,
            unconfirmationCount := s.unconfirmationCount + 1 } := by
  refine ⟨?_, ?_, fun s c ls w => rfl⟩
  · rw [runNodeEvents_spec]
  · rw [runNodeEvents_spec]

/-- Claim C5, counterexample: the sequence counter is a Go `uint64` and wraps:
starting from a factory whose counter holds `2 ^ 64 - 2`, the next message is
numbered `2 ^ 64 - 1` and the one after it is numbered `0`, which is not one
greater and not an increase. -/
theorem claim_c5_sequence_counterexample :
    let f : MessageFactory := ⟨⟨⟨[], []⟩, ⟨0⟩⟩, 2 ^ 64 - 2, 1⟩
    let r1 := CreateMessage f Color.Red 0 0
    let r2 := CreateMessage r1.2.1 Color.Red 1 r1.2.2
    r1.1.SequenceNumber = 2 ^ 64 - 1 ∧ r2.1.SequenceNumber = 0 ∧
    ¬ r1.1.SequenceNumber < r2.1.SequenceNumber := by
  decide

/-- Claim C5 as amended: consecutive `CreateMessage` calls on one factory
yield sequence numbers that advance by one modulo `2 ^ 64` (the atomic
`uint64` increment), and are strictly increasing by exactly one as long as the
counter has not wrapped. -/
theorem claim_c5_sequence_monotonic (f : MessageFactory) (c1 c2 : Color)
    (t1 t2 i1 i2 : Nat) :
    (CreateMessage (CreateMessage f c1 t1 i1).2.1 c2 t2 i2).1.SequenceNumber
        = ((CreateMessage f c1 t1 i1).1.SequenceNumber + 1) % 2 ^ 64 ∧
    ((CreateMessage f c1 t1 i1).1.SequenceNumber + 1 < 2 ^ 64 →
      (CreateMessage f c1 t1 i1).1.SequenceNumber
          < (CreateMessage (CreateMessage f c1 t1 i1).2.1 c2 t2 i2).1.SequenceNumber ∧
      (CreateMessage (CreateMessage f c1 t1 i1).2.1 c2 t2 i2).1.SequenceNumber
          = (CreateMessage f c1 t1 i1).1.SequenceNumber + 1) := by
  refine ⟨rfl, fun hlt => ?_⟩
  have h2 : (CreateMessage (CreateMessage f c1 t1 i1).2.1 c2 t2 i2).1.SequenceNumber
      = ((CreateMessage f c1 t1 i1).1.SequenceNumber + 1) % 2 ^ 64 := rfl
  rw [h2, Nat.mod_eq_of_lt hlt]
  omega

/-- Witness for the amended claim C5 on a fresh factory. -/
theorem claim_c5_sequence_monotonic_witness :
    (CreateMessage (CreateMessage (NewMessageFactory ⟨⟨[], []⟩, ⟨0⟩⟩ 1)
          Color.Red 0 0).2.1 Color.Red 0 1).1.SequenceNumber
      = (CreateMessage (NewMessageFactory ⟨⟨[], []⟩, ⟨0⟩⟩ 1)
          Color.Red 0 0).1.SequenceNumber + 1 :=
  ((claim_c5_sequence_monotonic (NewMessageFactory ⟨⟨[], []⟩, ⟨0⟩⟩ 1)
      Color.Red Color.Red 0 0 0 1).2 (by decide)).2

/-- Claim C6: a peer instructed by the double-spend simulation to send its
assigned (non-Undefined) colour issues exactly one message carrying that
colour. -/
theorem claim_c6_double_spend_payload (c : Color) (tps : Int)
    (hc : c ≠ Color.UndefinedColor) :
    (simulateDoubleSpentInstruct c tps).1.count c = 1 := by
  cases c
  · exact absurd rfl hc
  · rfl
  · rfl
  · rfl

/-- Witness for claim C6 with the colour Red. -/
theorem claim_c6_double_spend_payload_witness :
    (simulateDoubleSpentInstruct Color.Red 0).1.count Color.Red = 1 :=
  claim_c6_double_spend_payload Color.Red 0 (by decide)

/-- Claim C7: over any run of `CreateMessage` calls, each message's payload is
the caller-supplied colour, its issuance time is the clock reading at its
creation, its issuer is the owning node's peer identifier, and its identifier
is freshly allocated: the identifiers are the consecutive allocator values,
hence pairwise distinct. -/
theorem claim_c7_message_stamping (f : MessageFactory) (idc : Nat)
    (inputs : List (Color × Nat)) :
    (createRun f idc inputs).1.map Message.Payload = inputs.map Prod.fst ∧
    (createRun f idc inputs).1.map Message.IssuanceTime = inputs.map Prod.snd ∧
    (createRun f idc inputs).1.map Message.Issuer =
      List.replicate inputs.length f.tangle.peer.ID ∧
    (createRun f idc inputs).1.map Message.ID = List.range' idc inputs.length ∧
    ((createRun f idc inputs).1.map Message.ID).Nodup := by
  obtain ⟨h1, h2, h3, h4⟩ := createRun_spec f idc inputs
  exact ⟨h1, h2, h3, h4, h4 ▸ List.nodup_range' idc inputs.length⟩

/-- Claim C8: `CreateMessage` leaves every part of the factory and of the
owning tangle unchanged except the sequence counter, which it advances by one
modulo `2 ^ 64`. -/
theorem claim_c8_frame (f : MessageFactory) (c : Color) (t i : Nat) :
    (CreateMessage f c t i).2.1
        = { f with sequenceNumber := (f.sequenceNumber + 1) % 2 ^ 64 } ∧
    (CreateMessage f c t i).2.1.tangle = f.tangle ∧
    (CreateMessage f c t i).2.1.numberOfNodes = f.numberOfNodes :=
  ⟨rfl, rfl, rfl⟩

/-- Claim C9: every `sendMessage` call adds exactly one to the `tps` counter
and issues an `UndefinedColor` payload; when an optional colour is supplied
the call issues two messages, the supplied colour first and then
`UndefinedColor`. -/
theorem claim_c9_send_message (opt : List Color) (tps : Int) :
    (sendMessage opt tps).2 = tps + 1 ∧
    Color.UndefinedColor ∈ (sendMessage opt tps).1 ∧
    (match opt with
     | [] => (sendMessage opt tps).1 = [Color.UndefinedColor]
     | c :: _ => (sendMessage opt tps).1 = [c, Color.UndefinedColor]) := by
  cases opt <;> simp [sendMessage]

/-- Claim C10: every message returned by `CreateMessage` has an empty
weak-parent set. -/
theorem claim_c10_weak_parents_empty (f : MessageFactory) (c : Color) (t i : Nat) :
    (CreateMessage f c t i).1.WeakParents = [] :=
  rfl

end Multiverse
